import Mathlib

/-!
Shallow embedding of `src/preprocess.py` (`preprocess_vehicle_data`): an ETL
pipeline that recursively discovers `.xlsx` files, loads each one (skipping
files whose read raises), concatenates the loaded batches, renames columns to
canonical names, translates the two categorical state columns, coerces the
timestamp column and the seven required numeric columns, drops rows with a
missing required field, sorts by `record_time` ascending and writes the
resulting table.

Modelling conventions.
* A cell is tagged by which parser accepts its raw value: `Cell.timeVal t` is
  a value the timestamp parser accepts (the parsed time abstracted as a `Nat`),
  `Cell.numVal q` is a value the numeric parser accepts (the parsed float
  abstracted as an `Int` identifier; no arithmetic is ever performed on it),
  `Cell.text s` is a raw value accepted by neither parser, and `Cell.absent`
  is the missing-value marker (`NaN`/`NaT`/`None`).
* A DataFrame is a list of column names plus rows as association lists; a key
  missing from a row reads as `Cell.absent`, which is how `pd.concat` fills
  columns absent from a batch.
* Reading a column that is not in `columns` raises `KeyError`, modelled with
  `Except String`; the error payload is the offending column name.
* A `pd.read_excel` failure is modelled by a file whose `content` is `none`.
* `sort_values(by='record_time', ascending=True)` is modelled by a sort
  parameter constrained by `SortValuesSpec`: the output is a permutation of
  the input that is non-decreasing in the `record_time` key.  The source
  leaves the sort kind at the library default, which fixes the key order but
  not the relative order of rows with equal keys.
* Writing the parquet file is modelled by the `Outcome.done` constructor
  carrying the written table; the two early `return`s (no files found, no
  batches loaded) and an uncaught `KeyError` are the other outcomes, none of
  which writes an output file.
-/

deriving instance DecidableEq for Except

inductive Cell where
  | absent : Cell
  | timeVal : Nat → Cell
  | numVal : Int → Cell
  | text : String → Cell
deriving DecidableEq

abbrev Row := List (String × Cell)

def Row.getCell : Row → String → Cell
  | [], _ => Cell.absent
  | (c', v) :: r, c => if c' = c then v else Row.getCell r c

def Row.setCell : Row → String → Cell → Row
  | [], c, v => [(c, v)]
  | (c', v') :: r, c, v => if c' = c then (c, v) :: r else (c', v') :: Row.setCell r c v

structure DF where
  columns : List String
  rows : List Row
deriving DecidableEq

/-- One source file: its path and, when `read_excel` succeeds, its table;
`none` models a file whose read raises (unreadable, corrupt, malformed). -/
structure SrcFile where
  name : String
  content : Option DF
deriving DecidableEq

/-- `file.endswith('.xlsx')`: the name ends with the given suffix. -/
def strEndsWith (s suff : String) : Bool :=
  List.isSuffixOf suff.data s.data

/-- Step 1 of `preprocess_vehicle_data`: the `os.walk` loop keeping files
whose name ends with `.xlsx`.  The directory tree is modelled as the
walk-ordered list of its files. -/
def findXlsxFiles (files : List SrcFile) : List SrcFile :=
  files.filter (fun f => strEndsWith f.name ".xlsx")

/-- Step 2: the read loop; a file whose read raises is reported and skipped,
all others contribute their table to `df_list` in order. -/
def readBatches (files : List SrcFile) : List DF :=
  files.filterMap (fun f => f.content)

/-- The `df_list` the pipeline builds: discovered files, loaded. -/
def loadStage (files : List SrcFile) : List DF :=
  readBatches (findXlsxFiles files)

/-- Step 3: `pd.concat(df_list, ignore_index=True)`: the column union in
first-appearance order; all rows concatenated in batch order.  A row missing
one of the union columns reads as `Cell.absent`. -/
def concatDFs (dfs : List DF) : DF :=
  { columns := dfs.foldl (fun acc d => acc ++ d.columns.filter (fun c => !(acc.contains c))) [],
    rows := (dfs.map DF.rows).flatten }

/-- Step 4: the fixed rename table `cleaned_columns` from the source. -/
def cleaned_columns : List (String × String) :=
  [("record_time", "record_time"),
   ("vehicle_state", "vehicle_state"),
   ("charge_state", "charge_state"),
   ("pack_voltage(V)", "pack_voltage"),
   ("pack_current(A)", "pack_current"),
   ("SOC(%)", "soc"),
   ("max_cell_voltage (V)", "max_cell_voltage"),
   ("min_cell_voltage (V)", "min_cell_voltage"),
   ("max_probe_temperature (℃)", "max_temp"),
   ("min_probe_temperature (℃)", "min_temp")]

def renameColumn (c : String) : String :=
  (cleaned_columns.lookup c).getD c

/-- `full_df.rename(columns=cleaned_columns)`: columns in the rename table
get their canonical name, all other columns are kept unchanged. -/
def DF.renameColumns (df : DF) : DF :=
  { columns := df.columns.map renameColumn,
    rows := df.rows.map (fun r => r.map (fun p => (renameColumn p.1, p.2))) }

/-- Step 5: the two categorical lookup tables from the source. -/
def vehicle_state_map : List (String × String) :=
  [("车辆启动", "Vehicle Start"), ("熄火", "Engine Off")]

def charge_state_map : List (String × String) :=
  [("未充电", "Not Charging"), ("停车充电", "Parked Charging"), ("充电完成", "Charging Complete")]

/-- `Series.map(dict)`: a value that is a key of the dict is replaced by its
mapped value; every other value (including the missing marker) becomes the
missing marker.  Total: no input raises. -/
def seriesMap (m : List (String × String)) : Cell → Cell
  | Cell.text s =>
      match m.lookup s with
      | some t => Cell.text t
      | none => Cell.absent
  | _ => Cell.absent

/-- Step 6a: `pd.to_datetime(col, errors='coerce')`: total; a value the
timestamp parser accepts is kept as a parsed timestamp, any other value
becomes the missing marker, and no input raises. -/
def to_datetime_coerce : Cell → Cell
  | Cell.timeVal t => Cell.timeVal t
  | _ => Cell.absent

/-- Step 6b: `pd.to_numeric(col, errors='coerce')`: total; a value the
numeric parser accepts is kept as a parsed number, any other value becomes
the missing marker, and no input raises. -/
def to_numeric_coerce : Cell → Cell
  | Cell.numVal q => Cell.numVal q
  | _ => Cell.absent

/-- The `numeric_cols` list from the source. -/
def numeric_cols : List String :=
  ["pack_voltage", "pack_current", "soc", "max_cell_voltage",
   "min_cell_voltage", "max_temp", "min_temp"]

/-- The `dropna` subset: `['record_time'] + numeric_cols`. -/
def required_cols : List String := "record_time" :: numeric_cols

/-- The ten canonical-schema columns. -/
def canonical_cols : List String :=
  "record_time" :: "vehicle_state" :: "charge_state" :: numeric_cols

/-- The elementwise effect of `df[c] = f(df[c])` on one row. -/
def transRow (c : String) (f : Cell → Cell) (r : Row) : Row :=
  r.setCell c (f (r.getCell c))

/-- One elementwise column update `df[c] = f(df[c])`; reading `df[c]` raises
`KeyError` when `c` is not among the columns. -/
def DF.transformColumn (df : DF) (c : String) (f : Cell → Cell) : Except String DF :=
  if c ∈ df.columns then
    Except.ok { columns := df.columns, rows := df.rows.map (transRow c f) }
  else Except.error c

/-- The row predicate of `dropna(subset=...)`: every subset column holds a
non-missing value. -/
def notnaAll (subset : List String) (r : Row) : Bool :=
  subset.all (fun c => !(r.getCell c == Cell.absent))

/-- Step 7: `df.dropna(subset=cols, inplace=True)`; raises `KeyError` when a
subset column is missing from the table. -/
def DF.dropna (df : DF) (subset : List String) : Except String DF :=
  if ∀ c ∈ subset, c ∈ df.columns then
    Except.ok { columns := df.columns, rows := df.rows.filter (notnaAll subset) }
  else Except.error "dropna"

/-- The column updates of steps 5 and 6 in source order: translate
`vehicle_state` and `charge_state`, coerce `record_time` to timestamps,
then coerce each column of the `for col in numeric_cols` loop. -/
def coerceSteps : List (String × (Cell → Cell)) :=
  ("vehicle_state", seriesMap vehicle_state_map) ::
  ("charge_state", seriesMap charge_state_map) ::
  ("record_time", to_datetime_coerce) ::
  numeric_cols.map (fun c => (c, to_numeric_coerce))

/-- Steps 5 and 6: the column updates of `coerceSteps`, applied in order;
the first update whose column is missing raises `KeyError`. -/
def coerceDF (df : DF) : Except String DF :=
  coerceSteps.foldlM (fun d p => d.transformColumn p.1 p.2) df

/-- Steps 5 to 7: coercion followed by required-field filtering. -/
def normalizeDF (df : DF) : Except String DF := do
  let d ← coerceDF df
  d.dropna required_cols

/-- The sort key of `sort_values(by='record_time')`.  After required-field
filtering every row holds `Cell.timeVal t` there; the default for other cell
shapes is irrelevant to the pipeline. -/
def timeKey (r : Row) : Nat :=
  match r.getCell "record_time" with
  | Cell.timeVal t => t
  | _ => 0

def rowLE (a b : Row) : Prop := timeKey a ≤ timeKey b

instance : DecidableRel rowLE := fun a b => Nat.decLe (timeKey a) (timeKey b)

instance : IsTotal Row rowLE := ⟨fun a b => Nat.le_total (timeKey a) (timeKey b)⟩

instance : IsTrans Row rowLE := ⟨fun _ _ _ h h' => Nat.le_trans h h'⟩

/-- The contract of `sort_values(by='record_time', ascending=True)`: a
permutation of the rows, non-decreasing in the `record_time` key.  The call
leaves the sort kind at the library default, so nothing beyond this — in
particular no tie order — is fixed by the source. -/
def SortValuesSpec (sortAlg : List Row → List Row) : Prop :=
  ∀ rows : List Row, (sortAlg rows).Perm rows ∧ List.Pairwise rowLE (sortAlg rows)

/-- How one run of `preprocess_vehicle_data` ends: the two early diagnostic
returns, an uncaught `KeyError`, or the written output table. -/
inductive Outcome where
  | noFiles : Outcome
  | noData : Outcome
  | keyError : String → Outcome
  | done : DF → Outcome
deriving DecidableEq

/-- The unified table: all loaded batches concatenated. -/
def unifiedTable (files : List SrcFile) : DF :=
  concatDFs (loadStage files)

/-- The coerced table: the renamed unified table after categorical
translation and type coercion, before required-field filtering. -/
def coercedTable (files : List SrcFile) : Except String DF :=
  coerceDF (unifiedTable files).renameColumns

/-- The table right before the sort: renamed, translated, coerced,
required-field filtered. -/
def normalizedTable (files : List SrcFile) : Except String DF :=
  normalizeDF (unifiedTable files).renameColumns

/-- The whole of `preprocess_vehicle_data`, parameterised by the sort
implementation supplied by the library for the default sort kind. -/
def preprocess_vehicle_data (sortAlg : List Row → List Row) (files : List SrcFile) : Outcome :=
  if (findXlsxFiles files).isEmpty then Outcome.noFiles
  else if (loadStage files).isEmpty then Outcome.noData
  else
    match normalizedTable files with
    | Except.error c => Outcome.keyError c
    | Except.ok d => Outcome.done { columns := d.columns, rows := sortAlg d.rows }

/-- A conforming sort implementation used to evaluate concrete runs. -/
def isortRows (rows : List Row) : List Row :=
  List.insertionSort rowLE rows

/-- Another conforming sort implementation: it sorts the reversed row list,
so rows with equal keys come out in reversed relative order. -/
def badSort (rows : List Row) : List Row :=
  List.insertionSort rowLE rows.reverse

def outcomeRowCount : Outcome → Nat
  | Outcome.done df => df.rows.length
  | _ => 0

def outcomeColumns : Outcome → List String
  | Outcome.done df => df.columns
  | _ => []

/-- Whether the run wrote an output file. -/
def producesOutput : Outcome → Bool
  | Outcome.done _ => true
  | _ => false

/-! ### Basic lemmas about rows and column updates -/

theorem getCell_setCell (r : Row) (c c' : String) (v : Cell) :
    (r.setCell c v).getCell c' = if c = c' then v else r.getCell c' := by
  induction r with
  | nil =>
      by_cases h : c = c' <;> simp [Row.setCell, Row.getCell, h]
  | cons p r ih =>
      obtain ⟨k, w⟩ := p
      by_cases hk : k = c
      · subst hk
        by_cases h : k = c' <;> simp [Row.setCell, Row.getCell, h]
      · by_cases h : k = c'
        · subst h
          simp [Row.setCell, Row.getCell, hk, Ne.symm hk]
        · simp [Row.setCell, Row.getCell, hk, h, ih]

theorem getCell_transRow (c c' : String) (f : Cell → Cell) (r : Row) :
    (transRow c f r).getCell c' = if c = c' then f (r.getCell c) else r.getCell c' := by
  simp [transRow, getCell_setCell]

theorem transformColumn_ok {df : DF} {c : String} (f : Cell → Cell)
    (h : c ∈ df.columns) :
    df.transformColumn c f =
      Except.ok { columns := df.columns, rows := df.rows.map (transRow c f) } := by
  simp [DF.transformColumn, h]

theorem transformColumn_eq_ok {df d : DF} {c : String} {f : Cell → Cell}
    (h : df.transformColumn c f = Except.ok d) :
    c ∈ df.columns ∧ d.columns = df.columns ∧ d.rows = df.rows.map (transRow c f) := by
  by_cases hc : c ∈ df.columns
  · rw [transformColumn_ok f hc] at h
    cases h
    exact ⟨hc, rfl, rfl⟩
  · simp [DF.transformColumn, hc] at h

theorem exceptOkBind {α β γ : Type} (a : α) (g : α → Except γ β) :
    (Except.ok a >>= g : Except γ β) = g a := rfl

theorem exceptErrorBind {α β γ : Type} (e : γ) (g : α → Except γ β) :
    ((Except.error e : Except γ α) >>= g : Except γ β) = Except.error e := rfl

/-- The combined row effect of a list of column updates. -/
def foldTransP (ps : List (String × (Cell → Cell))) (r : Row) : Row :=
  ps.foldl (fun r p => transRow p.1 p.2 r) r

/-- The combined row effect of steps 5 and 6. -/
def coerceRow : Row → Row := foldTransP coerceSteps

theorem foldTransP_cons (p : String × (Cell → Cell)) (ps : List (String × (Cell → Cell)))
    (r : Row) : foldTransP (p :: ps) r = foldTransP ps (transRow p.1 p.2 r) := rfl

theorem map_foldTransP_nil (l : List Row) : l.map (foldTransP []) = l := by
  have h0 : foldTransP [] = id := funext fun r => rfl
  rw [h0, List.map_id]

theorem foldlM_transformP_ok {df : DF} {ps : List (String × (Cell → Cell))}
    (h : ∀ p ∈ ps, p.1 ∈ df.columns) :
    ps.foldlM (fun d p => d.transformColumn p.1 p.2) df =
      Except.ok { columns := df.columns, rows := df.rows.map (foldTransP ps) } := by
  induction ps generalizing df with
  | nil => rw [map_foldTransP_nil]; rfl
  | cons p ps ih =>
      have hc : p.1 ∈ df.columns := h p (List.mem_cons_self p ps)
      rw [List.foldlM_cons, transformColumn_ok p.2 hc, exceptOkBind]
      have htail : ∀ q ∈ ps,
          q.1 ∈ (DF.mk df.columns (df.rows.map (transRow p.1 p.2))).columns := by
        intro q hq
        exact h q (List.mem_cons_of_mem p hq)
      rw [ih htail]
      simp [List.map_map, Function.comp, foldTransP_cons]

theorem foldlM_transformP_eq_ok {df d : DF} {ps : List (String × (Cell → Cell))}
    (h : ps.foldlM (fun d p => d.transformColumn p.1 p.2) df = Except.ok d) :
    d.columns = df.columns ∧ d.rows = df.rows.map (foldTransP ps) := by
  induction ps generalizing df with
  | nil =>
      simp [List.foldlM] at h
      cases h
      rw [map_foldTransP_nil]
      exact ⟨rfl, rfl⟩
  | cons p ps ih =>
      rw [List.foldlM_cons] at h
      cases hstep : df.transformColumn p.1 p.2 with
      | error e => rw [hstep, exceptErrorBind] at h; cases h
      | ok d1 =>
          rw [hstep, exceptOkBind] at h
          obtain ⟨hc, hcols1, hrows1⟩ := transformColumn_eq_ok hstep
          obtain ⟨hcols2, hrows2⟩ := ih h
          refine ⟨hcols2.trans hcols1, ?_⟩
          rw [hrows2, hrows1]
          simp [List.map_map, Function.comp, foldTransP_cons]

theorem foldlM_transformP_err {df : DF} {ps : List (String × (Cell → Cell))}
    (h : ∃ p ∈ ps, p.1 ∉ df.columns) :
    ∃ e, ps.foldlM (fun d p => d.transformColumn p.1 p.2) df = Except.error e := by
  induction ps generalizing df with
  | nil => simp at h
  | cons p ps ih =>
      by_cases hc : p.1 ∈ df.columns
      · rw [List.foldlM_cons, transformColumn_ok p.2 hc, exceptOkBind]
        apply ih
        obtain ⟨q, hq, hnq⟩ := h
        rcases List.mem_cons.mp hq with rfl | hmem
        · exact absurd hc hnq
        · exact ⟨q, hmem, hnq⟩
      · refine ⟨p.1, ?_⟩
        rw [List.foldlM_cons]
        have hstep : df.transformColumn p.1 p.2 = Except.error p.1 := by
          simp [DF.transformColumn, hc]
        rw [hstep, exceptErrorBind]

/-! ### Characterisation of the coercion, filtering and pipeline stages -/

theorem coerceDF_eq_ok {df d : DF} (h : coerceDF df = Except.ok d) :
    d.columns = df.columns ∧ d.rows = df.rows.map coerceRow :=
  foldlM_transformP_eq_ok h

theorem coerceSteps_keys {p : String × (Cell → Cell)} (hp : p ∈ coerceSteps) :
    p.1 ∈ canonical_cols := by
  simp only [coerceSteps, List.mem_cons, List.mem_map] at hp
  rcases hp with rfl | rfl | rfl | ⟨c, hc, rfl⟩
  · simp [canonical_cols]
  · simp [canonical_cols]
  · simp [canonical_cols]
  · simp [canonical_cols, List.mem_cons]
    tauto

theorem canonical_key_of_coerceSteps {c : String} (hc : c ∈ canonical_cols) :
    ∃ f, (c, f) ∈ coerceSteps := by
  simp only [canonical_cols, List.mem_cons] at hc
  rcases hc with rfl | rfl | rfl | hmem
  · exact ⟨to_datetime_coerce, by simp [coerceSteps]⟩
  · exact ⟨seriesMap vehicle_state_map, by simp [coerceSteps]⟩
  · exact ⟨seriesMap charge_state_map, by simp [coerceSteps]⟩
  · refine ⟨to_numeric_coerce, ?_⟩
    simp only [coerceSteps, List.mem_cons, List.mem_map]
    exact Or.inr (Or.inr (Or.inr ⟨c, hmem, rfl⟩))

theorem coerceDF_ok {df : DF} (h : ∀ c ∈ canonical_cols, c ∈ df.columns) :
    coerceDF df = Except.ok { columns := df.columns, rows := df.rows.map coerceRow } := by
  unfold coerceDF
  exact foldlM_transformP_ok (fun p hp => h p.1 (coerceSteps_keys hp))

theorem coerceDF_err {df : DF} (h : ∃ c ∈ canonical_cols, c ∉ df.columns) :
    ∃ e, coerceDF df = Except.error e := by
  unfold coerceDF
  apply foldlM_transformP_err
  obtain ⟨c, hc, hnc⟩ := h
  obtain ⟨f, hf⟩ := canonical_key_of_coerceSteps hc
  exact ⟨(c, f), hf, hnc⟩

theorem normalizeDF_eq_ok {df d : DF} (h : normalizeDF df = Except.ok d) :
    ∃ dco, coerceDF df = Except.ok dco ∧ d.columns = dco.columns ∧
      d.rows = dco.rows.filter (notnaAll required_cols) := by
  unfold normalizeDF at h
  cases h1 : coerceDF df with
  | error e => rw [h1, exceptErrorBind] at h; cases h
  | ok dco =>
      rw [h1, exceptOkBind] at h
      unfold DF.dropna at h
      split at h
      · cases h
        exact ⟨dco, rfl, rfl, rfl⟩
      · cases h

theorem required_subset_canonical : ∀ c ∈ required_cols, c ∈ canonical_cols := by
  intro c hc
  simp only [required_cols, canonical_cols, List.mem_cons] at *
  tauto

theorem normalizeDF_ok {df : DF} (h : ∀ c ∈ canonical_cols, c ∈ df.columns) :
    normalizeDF df = Except.ok (DF.mk df.columns
      ((df.rows.map coerceRow).filter (notnaAll required_cols))) := by
  unfold normalizeDF
  rw [coerceDF_ok h, exceptOkBind]
  unfold DF.dropna
  rw [if_pos]
  intro c hc
  exact h c (required_subset_canonical c hc)

theorem preprocess_eq_done {s : List Row → List Row} {files : List SrcFile} {df : DF}
    (h : preprocess_vehicle_data s files = Outcome.done df) :
    ∃ d, normalizedTable files = Except.ok d ∧ df.columns = d.columns ∧ df.rows = s d.rows := by
  unfold preprocess_vehicle_data at h
  split at h
  · cases h
  · split at h
    · cases h
    · split at h
      · cases h
      · cases h
        next d heq => exact ⟨d, heq, rfl, rfl⟩

/-! ### Shape of coerced cells -/

theorem to_datetime_coerce_shape (x : Cell) :
    to_datetime_coerce x = Cell.absent ∨ ∃ t, to_datetime_coerce x = Cell.timeVal t := by
  cases x <;> simp [to_datetime_coerce]

theorem to_numeric_coerce_shape (x : Cell) :
    to_numeric_coerce x = Cell.absent ∨ ∃ q, to_numeric_coerce x = Cell.numVal q := by
  cases x <;> simp [to_numeric_coerce]

theorem getCell_coerceRow_rt (r : Row) :
    (coerceRow r).getCell "record_time" = to_datetime_coerce (r.getCell "record_time") := by
  simp [coerceRow, coerceSteps, numeric_cols, foldTransP, getCell_transRow]

theorem notnaAll_iff (subset : List String) (r : Row) :
    notnaAll subset r = true ↔ ∀ c ∈ subset, r.getCell c ≠ Cell.absent := by
  simp [notnaAll]

theorem normalizeDF_err {df : DF} {e : String} (h : coerceDF df = Except.error e) :
    normalizeDF df = Except.error e := by
  unfold normalizeDF
  rw [h, exceptErrorBind]

theorem foldlM_transformP_mem {df d : DF} {ps : List (String × (Cell → Cell))}
    (h : ps.foldlM (fun d p => d.transformColumn p.1 p.2) df = Except.ok d) :
    ∀ p ∈ ps, p.1 ∈ df.columns := by
  induction ps generalizing df with
  | nil => intro p hp; simp at hp
  | cons p ps ih =>
      rw [List.foldlM_cons] at h
      cases hstep : df.transformColumn p.1 p.2 with
      | error e => rw [hstep, exceptErrorBind] at h; cases h
      | ok d1 =>
          rw [hstep, exceptOkBind] at h
          obtain ⟨hc, hcols1, _⟩ := transformColumn_eq_ok hstep
          intro q hq
          rcases List.mem_cons.mp hq with rfl | hmem
          · exact hc
          · have := ih h q hmem
            rwa [hcols1] at this

/-! ### The two concrete sort implementations satisfy the sort contract -/

theorem sortValuesSpec_isortRows : SortValuesSpec isortRows := by
  intro rows
  exact ⟨List.perm_insertionSort rowLE rows, List.sorted_insertionSort rowLE rows⟩

theorem sortValuesSpec_badSort : SortValuesSpec badSort := by
  intro rows
  exact ⟨(List.perm_insertionSort rowLE rows.reverse).trans (List.reverse_perm rows),
         List.sorted_insertionSort rowLE rows.reverse⟩

/-! ### Row validity after the Normalizer -/

/-- A row carries a successfully parsed timestamp in `record_time` and a
successfully parsed number in each of the seven required numeric columns. -/
def rowParsedOk (r : Row) : Prop :=
  (∃ t, r.getCell "record_time" = Cell.timeVal t) ∧
  ∀ c ∈ numeric_cols, ∃ q, r.getCell c = Cell.numVal q

theorem getCell_coerceRow_num {c : String} (hc : c ∈ numeric_cols) (r : Row) :
    (coerceRow r).getCell c = to_numeric_coerce (r.getCell c) := by
  simp only [numeric_cols] at hc
  fin_cases hc <;>
    simp [coerceRow, coerceSteps, numeric_cols, foldTransP, getCell_transRow]

theorem coerced_filtered_parsed {l0 : List Row} {r : Row}
    (hr : r ∈ (l0.map coerceRow).filter (notnaAll required_cols)) : rowParsedOk r := by
  rw [List.mem_filter] at hr
  obtain ⟨hmem, hok⟩ := hr
  obtain ⟨r0, _, rfl⟩ := List.mem_map.mp hmem
  rw [notnaAll_iff] at hok
  constructor
  · have h1 := hok "record_time" (by simp [required_cols])
    rw [getCell_coerceRow_rt] at h1 ⊢
    rcases to_datetime_coerce_shape (r0.getCell "record_time") with h | h
    · exact absurd h h1
    · exact h
  · intro c hc
    have h1 := hok c (by simp [required_cols, hc])
    rw [getCell_coerceRow_num hc] at h1 ⊢
    rcases to_numeric_coerce_shape (r0.getCell c) with h | h
    · exact absurd h h1
    · exact h

/-- Full structure of a completed run: the coerced table exists, its rows are
the renamed unified rows mapped through `coerceRow`, and the written rows are
the sorted image of the required-field filter. -/
theorem done_rows_structure {sortAlg : List Row → List Row} {files : List SrcFile} {df : DF}
    (h : preprocess_vehicle_data sortAlg files = Outcome.done df) :
    ∃ dco, coercedTable files = Except.ok dco ∧
      dco.columns = (unifiedTable files).renameColumns.columns ∧
      dco.rows = (unifiedTable files).renameColumns.rows.map coerceRow ∧
      df.columns = dco.columns ∧
      df.rows = sortAlg (dco.rows.filter (notnaAll required_cols)) := by
  obtain ⟨d, hn, hcols, hrows⟩ := preprocess_eq_done h
  obtain ⟨dco, hco, hdcols, hdrows⟩ := normalizeDF_eq_ok hn
  obtain ⟨hcocols, hcorows⟩ := coerceDF_eq_ok hco
  refine ⟨dco, hco, hcocols, hcorows, ?_, ?_⟩
  · rw [hcols, hdcols]
  · rw [hrows, hdrows]

/-! ### Observation helpers for concrete runs -/

def exceptRows : Except String DF → List Row
  | Except.ok d => d.rows
  | Except.error _ => []

def outcomeRows : Outcome → List Row
  | Outcome.done df => df.rows
  | _ => []

/-! ### Concrete test data -/

/-- The source-file column header, before renaming. -/
def srcCols : List String :=
  ["record_time", "vehicle_state", "charge_state", "pack_voltage(V)", "pack_current(A)",
   "SOC(%)", "max_cell_voltage (V)", "min_cell_voltage (V)",
   "max_probe_temperature (℃)", "min_probe_temperature (℃)"]

/-- A fully valid raw input row. -/
def rawRow (t : Nat) (q : Int) (vs cs : String) : Row :=
  [("record_time", Cell.timeVal t), ("vehicle_state", Cell.text vs),
   ("charge_state", Cell.text cs), ("pack_voltage(V)", Cell.numVal q),
   ("pack_current(A)", Cell.numVal q), ("SOC(%)", Cell.numVal q),
   ("max_cell_voltage (V)", Cell.numVal q), ("min_cell_voltage (V)", Cell.numVal q),
   ("max_probe_temperature (℃)", Cell.numVal q), ("min_probe_temperature (℃)", Cell.numVal q)]

/-- A processed row, in canonical column order. -/
def procRow (t : Nat) (q : Int) (vs cs : Cell) : Row :=
  [("record_time", Cell.timeVal t), ("vehicle_state", vs), ("charge_state", cs),
   ("pack_voltage", Cell.numVal q), ("pack_current", Cell.numVal q), ("soc", Cell.numVal q),
   ("max_cell_voltage", Cell.numVal q), ("min_cell_voltage", Cell.numVal q),
   ("max_temp", Cell.numVal q), ("min_temp", Cell.numVal q)]

def tinyFile : SrcFile :=
  { name := "day0.xlsx",
    content := some { columns := srcCols, rows := [rawRow 1 4 "车辆启动" "未充电"] } }

def tinyOutDF : DF :=
  { columns := canonical_cols,
    rows := [procRow 1 4 (Cell.text "Vehicle Start") (Cell.text "Not Charging")] }

def goodFile3 : SrcFile :=
  { name := "day1.xlsx",
    content := some { columns := srcCols,
                      rows := [rawRow 3 1 "车辆启动" "未充电", rawRow 1 2 "熄火" "停车充电",
                               rawRow 2 3 "weird" "充电完成"] } }

/-- A file whose `read_excel` raises. -/
def corruptFile : SrcFile := { name := "day2.xlsx", content := none }

def tieFile : SrcFile :=
  { name := "tie.xlsx",
    content := some { columns := srcCols,
                      rows := [rawRow 5 1 "车辆启动" "未充电", rawRow 5 2 "熄火" "未充电"] } }

def tieRowA : Row := procRow 5 1 (Cell.text "Vehicle Start") (Cell.text "Not Charging")

def tieRowB : Row := procRow 5 2 (Cell.text "Engine Off") (Cell.text "Not Charging")

/-- A file carrying one column outside the canonical schema. -/
def extraFile : SrcFile :=
  { name := "extra.xlsx",
    content := some { columns := srcCols ++ ["extra"],
                      rows := [rawRow 1 4 "车辆启动" "未充电" ++ [("extra", Cell.text "x")]] } }

/-- A file lacking the `vehicle_state` column. -/
def noVehicleFile : SrcFile :=
  { name := "novs.xlsx",
    content := some
      { columns := ["record_time", "charge_state", "pack_voltage(V)", "pack_current(A)",
                    "SOC(%)", "max_cell_voltage (V)", "min_cell_voltage (V)",
                    "max_probe_temperature (℃)", "min_probe_temperature (℃)"],
        rows := [[("record_time", Cell.timeVal 1), ("charge_state", Cell.text "未充电"),
                  ("pack_voltage(V)", Cell.numVal 4), ("pack_current(A)", Cell.numVal 4),
                  ("SOC(%)", Cell.numVal 4), ("max_cell_voltage (V)", Cell.numVal 4),
                  ("min_cell_voltage (V)", Cell.numVal 4),
                  ("max_probe_temperature (℃)", Cell.numVal 4),
                  ("min_probe_temperature (℃)", Cell.numVal 4)]] } }

/-! ### Claims -/

/-- C3: a raw `vehicle_state` or `charge_state` value that is not a key of
its lookup table is translated by `Series.map` to the single unknown/missing
categorical value (`Cell.absent`, the embedding of the schema's "unknown"
label), so all unmapped values collapse into that one category, and the
translation is a total function — no value raises; the raw source-language
token `"车辆启动"` ("vehicle started") is translated to `"Vehicle Start"`. -/
theorem c3_categorical_translation :
    (∀ s : String, vehicle_state_map.lookup s = none →
        seriesMap vehicle_state_map (Cell.text s) = Cell.absent) ∧
    (∀ x : Cell, (∀ s, x ≠ Cell.text s) → seriesMap vehicle_state_map x = Cell.absent) ∧
    (∀ s : String, charge_state_map.lookup s = none →
        seriesMap charge_state_map (Cell.text s) = Cell.absent) ∧
    (∀ x : Cell, (∀ s, x ≠ Cell.text s) → seriesMap charge_state_map x = Cell.absent) ∧
    seriesMap vehicle_state_map (Cell.text "车辆启动") = Cell.text "Vehicle Start" := by
  refine ⟨?_, ?_, ?_, ?_, by decide⟩
  · intro s h; simp [seriesMap, h]
  · intro x h
    cases x with
    | text s => exact absurd rfl (h s)
    | absent => rfl
    | timeVal t => rfl
    | numVal q => rfl
  · intro s h; simp [seriesMap, h]
  · intro x h
    cases x with
    | text s => exact absurd rfl (h s)
    | absent => rfl
    | timeVal t => rfl
    | numVal q => rfl

theorem c3_witness :
    seriesMap vehicle_state_map (Cell.text "stray value") = Cell.absent ∧
    seriesMap vehicle_state_map Cell.absent = Cell.absent ∧
    seriesMap charge_state_map (Cell.text "stray value") = Cell.absent ∧
    seriesMap charge_state_map (Cell.numVal 7) = Cell.absent ∧
    seriesMap vehicle_state_map (Cell.text "车辆启动") = Cell.text "Vehicle Start" :=
  ⟨c3_categorical_translation.1 "stray value" (by decide),
   c3_categorical_translation.2.1 Cell.absent (fun s h => Cell.noConfusion h),
   c3_categorical_translation.2.2.1 "stray value" (by decide),
   c3_categorical_translation.2.2.2.1 (Cell.numVal 7) (fun s h => Cell.noConfusion h),
   c3_categorical_translation.2.2.2.2⟩

/-- C8: both coercions are total functions on cells; a value the respective
parser accepts is kept (as its parsed form), any value it cannot parse
becomes the missing-value marker, and no input raises. -/
theorem c8_coercion_total :
    (∀ x : Cell, ((∃ t, x = Cell.timeVal t) → to_datetime_coerce x = x) ∧
        (¬ (∃ t, x = Cell.timeVal t) → to_datetime_coerce x = Cell.absent)) ∧
    (∀ x : Cell, ((∃ q, x = Cell.numVal q) → to_numeric_coerce x = x) ∧
        (¬ (∃ q, x = Cell.numVal q) → to_numeric_coerce x = Cell.absent)) := by
  constructor <;> intro x <;> constructor
  · rintro ⟨t, rfl⟩; rfl
  · intro h
    cases x <;> first | rfl | exact absurd ⟨_, rfl⟩ h
  · rintro ⟨q, rfl⟩; rfl
  · intro h
    cases x <;> first | rfl | exact absurd ⟨_, rfl⟩ h

theorem c8_witness :
    to_datetime_coerce (Cell.timeVal 5) = Cell.timeVal 5 ∧
    to_datetime_coerce (Cell.text "not a date") = Cell.absent ∧
    to_numeric_coerce (Cell.numVal 3) = Cell.numVal 3 ∧
    to_numeric_coerce (Cell.text "not a number") = Cell.absent :=
  ⟨(c8_coercion_total.1 (Cell.timeVal 5)).1 ⟨5, rfl⟩,
   (c8_coercion_total.1 (Cell.text "not a date")).2 (by rintro ⟨t, h⟩; cases h),
   (c8_coercion_total.2 (Cell.numVal 3)).1 ⟨3, rfl⟩,
   (c8_coercion_total.2 (Cell.text "not a number")).2 (by rintro ⟨q, h⟩; cases h)⟩

/-- C10: the required-field filter reads only `record_time` and the seven
numeric columns: overwriting the `vehicle_state` and `charge_state` cells of
a row (with the unknown/missing value or anything else) never changes the
filter verdict, and the rows `dropna` keeps are exactly those passing
`notnaAll required_cols`. -/
theorem c10_filter_ignores_state_columns :
    (∀ (r : Row) (v w : Cell),
        notnaAll required_cols ((r.setCell "vehicle_state" v).setCell "charge_state" w) =
          notnaAll required_cols r) ∧
    (∀ df d : DF, df.dropna required_cols = Except.ok d →
        d.rows = df.rows.filter (notnaAll required_cols)) := by
  constructor
  · intro r v w
    simp [notnaAll, required_cols, numeric_cols, getCell_setCell]
  · intro df d h
    unfold DF.dropna at h
    split at h
    · cases h; rfl
    · cases h

theorem c10_witness :
    (notnaAll required_cols
        (((procRow 2 9 Cell.absent Cell.absent).setCell "vehicle_state" Cell.absent).setCell
          "charge_state" Cell.absent) =
      notnaAll required_cols (procRow 2 9 Cell.absent Cell.absent)) ∧
    ((DF.mk canonical_cols [procRow 2 9 Cell.absent Cell.absent]).rows =
      (DF.mk canonical_cols [procRow 2 9 Cell.absent Cell.absent]).rows.filter
        (notnaAll required_cols)) ∧
    notnaAll required_cols (procRow 2 9 Cell.absent Cell.absent) = true :=
  ⟨c10_filter_ignores_state_columns.1 (procRow 2 9 Cell.absent Cell.absent) Cell.absent Cell.absent,
   c10_filter_ignores_state_columns.2
     (DF.mk canonical_cols [procRow 2 9 Cell.absent Cell.absent])
     (DF.mk canonical_cols [procRow 2 9 Cell.absent Cell.absent]) (by decide),
   by decide⟩

/-- C6: with zero discovered files the run halts with the "no files found"
diagnostic before reading anything; with files discovered but zero batches
loaded it halts with the distinct "no data" diagnostic before concatenation;
in both cases no output is written. -/
theorem c6_fatal_conditions (sortAlg : List Row → List Row) (files : List SrcFile) :
    (findXlsxFiles files = [] →
      preprocess_vehicle_data sortAlg files = Outcome.noFiles ∧
      producesOutput (preprocess_vehicle_data sortAlg files) = false) ∧
    (findXlsxFiles files ≠ [] → loadStage files = [] →
      preprocess_vehicle_data sortAlg files = Outcome.noData ∧
      producesOutput (preprocess_vehicle_data sortAlg files) = false) := by
  constructor
  · intro h
    have h1 : preprocess_vehicle_data sortAlg files = Outcome.noFiles := by
      unfold preprocess_vehicle_data
      simp [h]
    exact ⟨h1, by rw [h1]; rfl⟩
  · intro h h2
    have h1 : preprocess_vehicle_data sortAlg files = Outcome.noData := by
      unfold preprocess_vehicle_data
      simp [List.isEmpty_iff, h, h2]
    exact ⟨h1, by rw [h1]; rfl⟩

theorem c6_witness :
    (preprocess_vehicle_data isortRows [] = Outcome.noFiles ∧
      producesOutput (preprocess_vehicle_data isortRows []) = false) ∧
    (preprocess_vehicle_data isortRows [corruptFile] = Outcome.noData ∧
      producesOutput (preprocess_vehicle_data isortRows [corruptFile]) = false) :=
  ⟨(c6_fatal_conditions isortRows []).1 rfl,
   (c6_fatal_conditions isortRows [corruptFile]).2 (by decide) (by decide)⟩

/-- C9: if the run reaches the Normalizer (files discovered, batches loaded)
but the renamed unified table lacks one of the canonical columns the
Normalizer reads, the run ends in an uncaught `KeyError` and writes no
output, rather than treating the column as absent. -/
theorem c9_missing_column_aborts {sortAlg : List Row → List Row} {files : List SrcFile}
    (h1 : findXlsxFiles files ≠ []) (h2 : loadStage files ≠ [])
    (h3 : ∃ c ∈ canonical_cols, c ∉ (unifiedTable files).renameColumns.columns) :
    (∃ e, preprocess_vehicle_data sortAlg files = Outcome.keyError e) ∧
    producesOutput (preprocess_vehicle_data sortAlg files) = false := by
  obtain ⟨e, he⟩ := coerceDF_err h3
  have hn : normalizedTable files = Except.error e := normalizeDF_err he
  have hp : preprocess_vehicle_data sortAlg files = Outcome.keyError e := by
    unfold preprocess_vehicle_data
    simp [List.isEmpty_iff, h1, h2, hn]
  exact ⟨⟨e, hp⟩, by rw [hp]; rfl⟩

theorem c9_witness :
    (∃ e, preprocess_vehicle_data isortRows [noVehicleFile] = Outcome.keyError e) ∧
    producesOutput (preprocess_vehicle_data isortRows [noVehicleFile]) = false :=
  c9_missing_column_aborts (by decide) (by decide) (by decide)

/-- C7: a discovered file whose read raises is caught and skipped: inserting
such a file anywhere into the tree leaves the run outcome unchanged, as long
as some other discovered file loads (so the run has data either way). -/
theorem c7_skip_failed_file (sortAlg : List Row → List Row) (fs1 fs2 : List SrcFile)
    (bad : SrcFile) (hb : bad.content = none) (hx : strEndsWith bad.name ".xlsx" = true)
    (hgood : ∃ f ∈ findXlsxFiles (fs1 ++ fs2), f.content ≠ none) :
    preprocess_vehicle_data sortAlg (fs1 ++ bad :: fs2) =
      preprocess_vehicle_data sortAlg (fs1 ++ fs2) := by
  have hfind : findXlsxFiles (fs1 ++ bad :: fs2) =
      findXlsxFiles fs1 ++ bad :: findXlsxFiles fs2 := by
    simp [findXlsxFiles, List.filter_append, List.filter_cons, hx]
  have hfindR : findXlsxFiles (fs1 ++ fs2) = findXlsxFiles fs1 ++ findXlsxFiles fs2 := by
    simp [findXlsxFiles, List.filter_append]
  have hload : loadStage (fs1 ++ bad :: fs2) = loadStage (fs1 ++ fs2) := by
    unfold loadStage readBatches
    rw [hfind, hfindR]
    simp [List.filterMap_append, List.filterMap_cons, hb]
  have hfindLne : (findXlsxFiles (fs1 ++ bad :: fs2)).isEmpty = false := by
    rw [hfind]
    simp
  have hfindRne : (findXlsxFiles (fs1 ++ fs2)).isEmpty = false := by
    obtain ⟨f, hf, _⟩ := hgood
    rw [Bool.eq_false_iff, Ne, List.isEmpty_iff]
    exact List.ne_nil_of_mem hf
  unfold preprocess_vehicle_data normalizedTable unifiedTable
  rw [hload, hfindLne, hfindRne]

theorem c7_witness :
    corruptFile.content = none ∧
    preprocess_vehicle_data isortRows ([goodFile3] ++ corruptFile :: []) =
      preprocess_vehicle_data isortRows ([goodFile3] ++ []) ∧
    outcomeRowCount (preprocess_vehicle_data isortRows [goodFile3, corruptFile]) = 3 ∧
    producesOutput (preprocess_vehicle_data isortRows [goodFile3, corruptFile]) = true :=
  ⟨rfl,
   c7_skip_failed_file isortRows [goodFile3] [] corruptFile rfl (by decide) (by decide),
   by decide, by decide⟩

theorem coerceDF_mem {df d : DF} (h : coerceDF df = Except.ok d) :
    ∀ c ∈ canonical_cols, c ∈ df.columns := by
  intro c hc
  obtain ⟨f, hf⟩ := canonical_key_of_coerceSteps hc
  exact foldlM_transformP_mem h (c, f) hf

/-- C5 (amended): every completed run's output table contains all ten
canonical-schema columns (each was read, hence present, during the
Normalizer); the counterexample shows columns outside the canonical ten are
not removed, so "and no others" fails on the code. -/
theorem c5_contains_canonical {sortAlg : List Row → List Row} {files : List SrcFile} {df : DF}
    (h : preprocess_vehicle_data sortAlg files = Outcome.done df) :
    ∀ c ∈ canonical_cols, c ∈ df.columns := by
  obtain ⟨d, hn, hcols, _⟩ := preprocess_eq_done h
  obtain ⟨dco, hco, hdcols, _⟩ := normalizeDF_eq_ok hn
  obtain ⟨hcocols, _⟩ := coerceDF_eq_ok hco
  intro c hc
  rw [hcols, hdcols, hcocols]
  exact coerceDF_mem hco c hc

theorem c5_witness : "soc" ∈ tinyOutDF.columns ∧ "record_time" ∈ tinyOutDF.columns :=
  ⟨@c5_contains_canonical isortRows [tinyFile] tinyOutDF (by decide) "soc" (by decide),
   @c5_contains_canonical isortRows [tinyFile] tinyOutDF (by decide) "record_time" (by decide)⟩

/-- C5 counterexample: a run on an input carrying one column outside the
canonical schema completes, and the written table contains that column, so
the output does not consist of exactly the ten canonical columns. -/
theorem c5_counterexample :
    SortValuesSpec isortRows ∧
    producesOutput (preprocess_vehicle_data isortRows [extraFile]) = true ∧
    "extra" ∈ outcomeColumns (preprocess_vehicle_data isortRows [extraFile]) ∧
    "extra" ∉ canonical_cols :=
  ⟨sortValuesSpec_isortRows, by decide, by decide, by decide⟩

/-- C2: in every completed run (under any sort implementation meeting the
`sort_values` contract) the written rows are monotonically non-decreasing in
the `record_time` key from first to last, and every written row carries a
parsed timestamp there. -/
theorem c2_record_time_sorted {sortAlg : List Row → List Row}
    (hs : SortValuesSpec sortAlg) {files : List SrcFile} {df : DF}
    (h : preprocess_vehicle_data sortAlg files = Outcome.done df) :
    List.Pairwise rowLE df.rows ∧
    ∀ r ∈ df.rows, ∃ t, r.getCell "record_time" = Cell.timeVal t := by
  obtain ⟨dco, hco, hccols, hcrows, hdfcols, hdfrows⟩ := done_rows_structure h
  constructor
  · rw [hdfrows]
    exact (hs _).2
  · intro r hr
    rw [hdfrows] at hr
    have hr' := ((hs _).1.mem_iff).mp hr
    rw [hcrows] at hr'
    exact (coerced_filtered_parsed hr').1

theorem c2_witness :
    List.Pairwise rowLE tinyOutDF.rows ∧
    ∀ r ∈ tinyOutDF.rows, ∃ t, r.getCell "record_time" = Cell.timeVal t :=
  @c2_record_time_sorted isortRows sortValuesSpec_isortRows [tinyFile] tinyOutDF (by decide)

/-- C1: in every completed run, the written row count equals the unified
(concatenated) row count minus the number of coerced rows failing the
required-field filter, and every written row holds a successfully parsed
value in `record_time` and in each of the seven required numeric columns. -/
theorem c1_output_row_count {sortAlg : List Row → List Row}
    (hs : SortValuesSpec sortAlg) {files : List SrcFile} {df : DF}
    (h : preprocess_vehicle_data sortAlg files = Outcome.done df) :
    ∃ dco, coercedTable files = Except.ok dco ∧
      df.rows.length = (unifiedTable files).rows.length -
        dco.rows.countP (fun r => !(notnaAll required_cols r)) ∧
      ∀ r ∈ df.rows, rowParsedOk r := by
  obtain ⟨dco, hco, hccols, hcrows, hdfcols, hdfrows⟩ := done_rows_structure h
  refine ⟨dco, hco, ?_, ?_⟩
  · have hlen1 : df.rows.length = (dco.rows.filter (notnaAll required_cols)).length := by
      rw [hdfrows]
      exact ((hs _).1).length_eq
    have hlen2 : dco.rows.length = (unifiedTable files).rows.length := by
      rw [hcrows]
      simp [DF.renameColumns]
    have h2 := @List.length_eq_length_filter_add Row dco.rows (notnaAll required_cols)
    have h1 : dco.rows.countP (fun r => !(notnaAll required_cols r)) =
        (dco.rows.filter (fun r => !(notnaAll required_cols r))).length := by
      simp [List.countP_eq_length_filter]
    rw [hlen1, ← hlen2, h1]
    omega
  · intro r hr
    rw [hdfrows] at hr
    have hr' := ((hs _).1.mem_iff).mp hr
    rw [hcrows] at hr'
    exact coerced_filtered_parsed hr'

theorem c1_witness :
    ∃ dco, coercedTable [tinyFile] = Except.ok dco ∧
      tinyOutDF.rows.length = (unifiedTable [tinyFile]).rows.length -
        dco.rows.countP (fun r => !(notnaAll required_cols r)) ∧
      ∀ r ∈ tinyOutDF.rows, rowParsedOk r :=
  @c1_output_row_count isortRows sortValuesSpec_isortRows [tinyFile] tinyOutDF (by decide)

/-- C4 counterexample: `badSort` meets the source's `sort_values` contract
(sorted permutation under the default sort kind, whose tie order is not
specified), yet on a run whose two surviving rows share one `record_time`
the output reverses their pre-sort relative order — so stability, and
consequently order-identical repeated output, is not guaranteed by the
code. -/
theorem c4_counterexample :
    SortValuesSpec badSort ∧
    timeKey tieRowA = timeKey tieRowB ∧ tieRowA ≠ tieRowB ∧
    exceptRows (normalizedTable [tieFile]) = [tieRowA, tieRowB] ∧
    producesOutput (preprocess_vehicle_data badSort [tieFile]) = true ∧
    outcomeRows (preprocess_vehicle_data badSort [tieFile]) = [tieRowB, tieRowA] :=
  ⟨sortValuesSpec_badSort, by decide, by decide, by decide, by decide, by decide⟩

/-- C4 (amended): under every sort implementation meeting the `sort_values`
contract, a completed run's output rows are a permutation of the pre-sort
surviving rows and non-decreasing in `record_time`; with the sort
implementation fixed, repeated runs on unchanged input give identical
output, but the relative order of rows with equal `record_time` is not fixed
by the code. -/
theorem c4_sorted_permutation {sortAlg : List Row → List Row}
    (hs : SortValuesSpec sortAlg) {files : List SrcFile} {df d : DF}
    (h : preprocess_vehicle_data sortAlg files = Outcome.done df)
    (hn : normalizedTable files = Except.ok d) :
    df.rows.Perm d.rows ∧ List.Pairwise rowLE df.rows := by
  obtain ⟨d', hn', _, hrows⟩ := preprocess_eq_done h
  rw [hn'] at hn
  injection hn with hd
  subst hd
  rw [hrows]
  exact ⟨(hs _).1, (hs _).2⟩

theorem c4_witness :
    tinyOutDF.rows.Perm tinyOutDF.rows ∧ List.Pairwise rowLE tinyOutDF.rows :=
  @c4_sorted_permutation isortRows sortValuesSpec_isortRows [tinyFile] tinyOutDF tinyOutDF
    (by decide) (by decide)
